import Mathlib

/-!
Verification development for the Mod Acquisition & Import Engine of the
Rust4Diva mod manager.  The Rust sources (`src/gamebanana_async.rs`,
`src/firstlaunch.rs`, `src/main.rs`) are shallowly embedded: strings are
`List Char`, fallible or panicking code is `Option`/`Except Unit`, JSON
values are an inductive `Json`, and the stateful UI closures become pure
state-transition functions.  Machine-integer casts (`u32 as i32`,
`u64 as i32`) are modelled explicitly with wrap-around arithmetic.
-/

deriving instance DecidableEq for Except

namespace R4D

/-! ## Deep-link parsing (`parse_dmm_url`, gamebanana_async.rs lines 253-269)

The Rust code first checks that the url starts with the literal scheme
string, then runs the regex `([0-9]+),(.+),([0-9]+)` with
`Regex::captures` over the *whole* url.  `captures` is unanchored: it
finds the leftmost position at which the pattern matches, with Perl-style
greedy semantics for `+`, and `.` not matching a newline.  The functions
below implement exactly that matcher for this fixed pattern. -/

/-- Splits a maximal leading run of ASCII digits, as the greedy `[0-9]+`. -/
def takeDigits : List Char → List Char × List Char
  | [] => ([], [])
  | c :: rest =>
    if c.isDigit then
      let p := takeDigits rest
      (c :: p.1, p.2)
    else ([], c :: rest)

/-- Does a comma sit here with a digit right after it?  If so, the final
capture group is the maximal digit run following the comma. -/
def findTailBase (x : Char) (rest : List Char) : Option (List Char × List Char) :=
  if x = ',' then
    match rest with
    | y :: _ => if y.isDigit then some ([], (takeDigits rest).1) else none
    | [] => none
  else none

/-- Greedy backtracking of `(.+),([0-9]+)` at the end of the pattern: the
*last* position `j` holding a comma followed by a digit splits the input
into the middle group (everything before `j`) and the final digit run. -/
def findTail : List Char → Option (List Char × List Char)
  | [] => none
  | x :: rest =>
    (findTail rest).elim (findTailBase x rest) (fun p => some (x :: p.1, p.2))

/-- One match attempt of `([0-9]+),(.+),([0-9]+)` anchored at the start of
the input.  `.` does not match a newline, hence the `takeWhile` cut. -/
def matchAt (cands : List Char) : Option (List Char × List Char × List Char) :=
  let p := takeDigits cands
  if p.1.isEmpty then none
  else
    match p.2 with
    | ',' :: rest2 =>
      match findTail (rest2.takeWhile (fun ch => ch != '\n')) with
      | some q => if q.1.isEmpty then none else some (p.1, q.1, q.2)
      | _ => none
    | _ => none

/-- Unanchored search: the leftmost position whose match attempt succeeds,
as `Regex::captures` does. -/
def searchFrom : List Char → Option (List Char × List Char × List Char)
  | [] => none
  | c :: rest =>
    match matchAt (c :: rest) with
    | some r => some r
    | none => searchFrom rest

/-- The result record of `parse_dmm_url` (struct `GbDmmItem`). -/
structure GbDmmItem where
  item_id : List Char
  itemtype : List Char
  file_id : List Char
deriving DecidableEq

/-- The literal scheme string checked by `starts_with` in the source. -/
def dmmHead : List Char := "divamodmanager:https://gamebanana.com/mmdl/".toList

/-- `parse_dmm_url` (gamebanana_async.rs lines 253-269): prefix check, then
the unanchored regex over the whole url; capture group 1 becomes
`file_id`, group 2 `itemtype`, group 3 `item_id`. -/
def parse_dmm_url (dmm_url : List Char) : Option GbDmmItem :=
  if dmmHead.isPrefixOf dmm_url then
    match searchFrom dmm_url with
    | some r => some { file_id := r.1, itemtype := r.2.1, item_id := r.2.2 }
    | none => none
  else none

/-- The deep-link grammar in the words of the spec (section 4.2): after the
scheme string, one or more digits, a comma, one or more non-comma
characters, a comma, one or more digits, anchored to the whole remainder.
Used only to compare against the behaviour of `parse_dmm_url`. -/
def specRemainder (rem : List Char) : Bool :=
  let p := takeDigits rem
  if p.1.isEmpty then false
  else
    match p.2 with
    | ',' :: t =>
      let mid := t.takeWhile (fun c2 => c2 != ',')
      if mid.isEmpty then false
      else
        match t.drop mid.length with
        | ',' :: t2 => !t2.isEmpty && t2.all Char.isDigit
        | _ => false
    | _ => false

/-! ## Machine-integer casts -/

/-- Rust `u32 as i32`: wrap-around reinterpretation of the low 32 bits. -/
def castU32toI32 (n : Nat) : Int :=
  let m : Int := (n % 4294967296 : Nat)
  if m < 2147483648 then m else m - 4294967296

/-- Rust `u64 as i32`: wrap-around reinterpretation of the low 32 bits. -/
def castU64toI32 (n : Nat) : Int :=
  castU32toI32 (n % 4294967296)

/-! ## Download enqueueing (gamebanana_async.rs lines 394-413 and 415-480)

The `Download` record is the slint-side task struct.  Both enqueue paths
(`on_download_file` for search-driven downloads, the inner push of
`handle_dmm_oneclick` for deep-link downloads) read the current downloads
model, push a new `Download`, and send a `(position, Download)` pair on
the channel; neither consults the registry for an existing task. -/

/-- The slint `Download` struct (progress is an `f32` in the source, set
only to the literal `0.0` on these paths, modelled as `Rat`). -/
structure Download where
  failed : Bool
  id : Int
  name : List Char
  progress : Rat
  size : Int
  url : List Char
deriving DecidableEq

/-- The remote file record `GbModDownload` (gamebanana_async.rs lines
33-63); `u32` fields are `Nat` constrained to 32 bits at decode time. -/
structure GbModDownload where
  id : Nat
  file : List Char
  filesize : Nat
  description : List Char
  date_added : Nat
  download_count : Nat
  md5_checksum : List Char
  download_url : List Char
  clam_av_result : List Char
  avast_av_result : List Char
  analysis_state : List Char
  analysis_result : List Char
  analysis_result_code : List Char
  contains_exe : Bool
deriving DecidableEq

/-- `impl From<GbModDownload> for Download` (lines 65-76) and the
identical field-by-field construction inside `handle_dmm_oneclick`. -/
def gbFileToDownload (value : GbModDownload) : Download :=
  { failed := false
    id := castU32toI32 value.id
    name := value.file
    progress := 0
    size := castU32toI32 value.filesize
    url := value.download_url }

/-- The `on_download_file` closure (lines 394-410): push the file onto the
downloads model unconditionally and send `(file_row, file)`. -/
def on_download_file (downloads : List Download) (file : Download) (file_row : Int) :
    List Download × Int × Download :=
  (downloads ++ [file], file_row, file)

/-- The push performed by `handle_dmm_oneclick` once the right file is
found (lines 440-468): build a `Download`, push it, and send it at
position `downloads.len()`. -/
def oneclick_push (downloads : List Download) (file : GbModDownload) :
    List Download × Int × Download :=
  let download := gbFileToDownload file
  (downloads ++ [download], (Int.ofNat downloads.length, download))

/-! ## JSON model and `fetch_mod_data` (gamebanana_async.rs lines 199-251)

`sonic_rs::Value` is modelled by `Json`; indexing a non-array or an
out-of-range index yields `null`, and `into_object` succeeds only on
objects, as in sonic_rs.  The network transfer and the string-to-JSON
parse are inputs: `none` is a transport failure (the source calls
`perform().unwrap()`, a panic), `some none` a body that is not valid
JSON (the source leaves `the_mod` as `None`), `some (some v)` a parsed
value.  The per-chunk write callback is modelled as one invocation
carrying the whole body.  Panics are `Except.error ()`. -/

inductive Json where
  | null
  | bool (b : Bool)
  | num (n : Int)
  | str (s : List Char)
  | arr (items : List Json)
  | obj (fields : List (List Char × Json))

/-- `Value` bracket indexing: element `i` of an array, else `null`. -/
def Json.get (j : Json) (i : Nat) : Json :=
  match j with
  | Json.arr items => items.getD i Json.null
  | _ => Json.null

/-- `Value::into_object`: the field list of an object, else `None`. -/
def Json.intoObject : Json → Option (List (List Char × Json))
  | Json.obj fields => some fields
  | _ => none

/-- JSON string escaping used when a `Value` is rendered back to text
(quote, backslash and the common control characters). -/
def escapeChar (c : Char) : List Char :=
  if c = '"' ∨ c = '\\' then ['\\', c]
  else if c = '\n' then ['\\', 'n']
  else if c = '\t' then ['\\', 't']
  else if c = '\r' then ['\\', 'r']
  else [c]

/-- `ToString` on a `sonic_rs::Value` renders its JSON text; a string
value keeps its surrounding quotes.  (`mod_data[0].to_string()` and
`mod_data[2].to_string()` in the source go through this.) -/
def Json.render : Json → List Char
  | Json.null => "null".toList
  | Json.bool b => if b then "true".toList else "false".toList
  | Json.num n => (toString n).toList
  | Json.str s => '"' :: (s.flatMap escapeChar) ++ ['"']
  | Json.arr items => Char.ofNat 91 :: renderItems items ++ [Char.ofNat 93]
  | Json.obj fields => Char.ofNat 123 :: renderFields fields ++ [Char.ofNat 125]
where
  renderItems : List Json → List Char
    | [] => []
    | [j] => j.render
    | j :: rest => j.render ++ ',' :: renderItems rest
  renderFields : List (List Char × Json) → List Char
    | [] => []
    | [(k, v)] => '"' :: (k.flatMap escapeChar) ++ '"' :: ':' :: v.render
    | (k, v) :: rest =>
      '"' :: (k.flatMap escapeChar) ++ '"' :: ':' :: v.render ++ ',' :: renderFields rest

/-- First-match association lookup (serde reads the named field). -/
def lookupField (fields : List (List Char × Json)) (k : List Char) : Option Json :=
  match fields with
  | [] => none
  | (k2, v) :: rest => if k2 = k then some v else lookupField rest k

/-- serde: a required `String` field. -/
def fieldStr (fields : List (List Char × Json)) (k : List Char) : Option (List Char) :=
  match lookupField fields k with
  | some (Json.str s) => some s
  | _ => none

/-- serde: a required `u32` field (JSON integer within 32 bits). -/
def fieldU32 (fields : List (List Char × Json)) (k : List Char) : Option Nat :=
  match lookupField fields k with
  | some (Json.num n) => if 0 ≤ n ∧ n < 4294967296 then some n.toNat else none
  | _ => none

/-- serde: a required `bool` field. -/
def fieldBool (fields : List (List Char × Json)) (k : List Char) : Option Bool :=
  match lookupField fields k with
  | some (Json.bool b) => some b
  | _ => none

/-- serde `Deserialize` for `GbModDownload` with its `rename` attributes:
every field is required; unknown fields are ignored. -/
def decodeGbModDownload (j : Json) : Option GbModDownload :=
  match j with
  | Json.obj fields => do
    let id ← fieldU32 fields ("_idRow".toList)
    let file ← fieldStr fields ("_sFile".toList)
    let filesize ← fieldU32 fields ("_nFilesize".toList)
    let description ← fieldStr fields ("_sDescription".toList)
    let date_added ← fieldU32 fields ("_tsDateAdded".toList)
    let download_count ← fieldU32 fields ("_nDownloadCount".toList)
    let md5_checksum ← fieldStr fields ("_sMd5Checksum".toList)
    let download_url ← fieldStr fields ("_sDownloadUrl".toList)
    let clam_av_result ← fieldStr fields ("_sClamAvResult".toList)
    let avast_av_result ← fieldStr fields ("_sAvastAvResult".toList)
    let analysis_state ← fieldStr fields ("_sAnalysisState".toList)
    let analysis_result ← fieldStr fields ("_sAnalysisResult".toList)
    let analysis_result_code ← fieldStr fields ("_sAnalysisResultCode".toList)
    let contains_exe ← fieldBool fields ("_bContainsExe".toList)
    pure { id, file, filesize, description, date_added, download_count,
           md5_checksum, download_url, clam_av_result, avast_av_result,
           analysis_state, analysis_result, analysis_result_code, contains_exe }
  | _ => none

/-- The mod record built by `fetch_mod_data` (struct `GBMod`). -/
structure GBMod where
  name : List Char
  files : List GbModDownload
  text : List Char
deriving DecidableEq

/-- The loop over `info_mods.iter()`: each value is decoded with
`from_value::<GbModDownload>(value).unwrap()` — the first record that
fails to decode panics, so nothing after it is processed. -/
def decodeFiles : List (List Char × Json) → Option (List GbModDownload)
  | [] => some []
  | (_, v) :: rest =>
    match decodeGbModDownload v with
    | none => none
    | some d =>
      match decodeFiles rest with
      | none => none
      | some ds => some (d :: ds)

/-- Body of the write callback once the body parsed as JSON: take index 1
as the file map (else leave the result absent), decode every file record
(panicking on the first bad one), and assemble the `GBMod`. -/
def processResponse (mod_data : Json) : Except Unit (Option GBMod) :=
  match (mod_data.get 1).intoObject with
  | none => Except.ok none
  | some info_mods =>
    match decodeFiles info_mods with
    | none => Except.error ()
    | some dl_files =>
      Except.ok (some { name := (mod_data.get 0).render
                        files := dl_files
                        text := (mod_data.get 2).render })

/-- `fetch_mod_data` (lines 199-251).  An empty `mod_id` returns `None`
before any transfer is set up.  A transport failure hits
`perform().unwrap()` and panics.  A body that does not parse as JSON
leaves the result absent.  Otherwise the parsed value is processed. -/
def fetch_mod_data (mod_id : List Char) (transport : Option (Option Json)) :
    Except Unit (Option GBMod) :=
  if mod_id.isEmpty then Except.ok none
  else
    match transport with
    | none => Except.error ()
    | some none => Except.ok none
    | some (some v) => processResponse v

/-! ## Legacy config importer (firstlaunch.rs)

`DmmConfig` mirrors the serde data model of the legacy `Config.json`;
`HashMap`s become association lists with first-match lookup (keys of a
real `HashMap` are unique).  `filenamify` is an external crate whose
sources are not part of this repository. -/

/-- One `{name, enabled}` loadout entry (struct `DmmLoadoutMod`). -/
structure DmmLoadoutMod where
  name : List Char
  enabled : Bool
deriving DecidableEq

/-- Per-profile settings (struct `DmmPDMMConfig`); every field carries a
serde `default`, so each is optional in the JSON. -/
structure DmmPDMMConfig where
  launcher : Option (List Char)
  game_path : Option (List Char)
  mods_folder : Option (List Char)
  current_loadout : Option (List Char)
  loadouts : List (List Char × List DmmLoadoutMod)
deriving DecidableEq

/-- Top level of the legacy `Config.json` (struct `DmmConfig`): both
fields are required. -/
structure DmmConfig where
  current_game : List Char
  configs : List (List Char × DmmPDMMConfig)
deriving DecidableEq

/-- Modelled from the spec: the `filenamify` dependency is not in the
sources; the spec (sections 4.5 and 8) describes it as a filesystem-safe
transform of a name in which non-alphanumeric characters are
normalized/stripped, under which for example "My Loadout!" and
"My Loadout?" agree.  Alphanumeric characters and spaces are kept,
everything else is stripped.  The transform is idempotent. -/
def filenamify (s : List Char) : List Char :=
  s.filter (fun c => c.isAlphanum || c = ' ')

/-- `PathBuf::push` on a Unix path: an absolute component replaces the
path, otherwise a separator is inserted unless one is already present. -/
def pathPush (dir : List Char) (name : List Char) : List Char :=
  if name.head? = some '/' then name
  else if dir.isEmpty then name
  else if dir.getLast? = some '/' then dir ++ name
  else dir ++ '/' :: name

/-- `PathBuf::pop` followed by `display`: drop the last path component
(everything after the final separator, and the separator itself). -/
def pathPop (p : List Char) : List Char :=
  ((p.reverse.dropWhile (fun c => c != '/')).drop 1).reverse

/-- A mod entry of this application's package format (struct
`ModPackMod` of modpacks.rs, as built here). -/
structure ModPackMod where
  name : List Char
  enabled : Bool
  path : List Char
deriving DecidableEq

/-- A package (struct `ModPack`).  Modelled from the spec: `ModPack::new`
lives in modpacks.rs, outside these sources; per the spec's
ImportedPackage it carries the (filesystem-safe) name and the list of
converted mod entries, starting empty. -/
structure ModPack where
  name : List Char
  mods : List ModPackMod
deriving DecidableEq

/-- `DmmLoadoutMod::to_packmod` (firstlaunch.rs lines 50-58): push the
mod name onto the mods directory and keep name and enabled flag. -/
def DmmLoadoutMod.to_packmod (m : DmmLoadoutMod) (mods_dir : List Char) : ModPackMod :=
  { name := m.name, enabled := m.enabled, path := pathPush mods_dir m.name }

/-- The slint `Loadout` row presented in the first-run dialog: the
(normalized) display name and the import checkbox. -/
structure Loadout where
  name : List Char
  doImport : Bool
deriving DecidableEq

/-- Rust `String` ordering: lexicographic. -/
def lexLe : List Char → List Char → Bool
  | [], _ => true
  | _ :: _, [] => false
  | a :: as2, b :: bs => if a = b then lexLe as2 bs else decide (a < b)

/-- Stable insertion into a sorted list (the element goes before the
first entry it compares `le` to). -/
def insertSorted (le : Loadout → Loadout → Bool) (x : Loadout) :
    List Loadout → List Loadout
  | [] => [x]
  | y :: ys => if le x y then x :: y :: ys else y :: insertSorted le x ys

/-- A stable sort, modelling `Vec::sort_by_key` (Rust's sort is stable). -/
def stableSort (le : Loadout → Loadout → Bool) : List Loadout → List Loadout
  | [] => []
  | x :: xs => insertSorted le x (stableSort le xs)

/-- The sort key used at firstlaunch.rs line 117: the row's name. -/
def loadoutLe (a b : Loadout) : Bool := lexLe a.name b.name

/-- First-match association lookup on a profile/loadout table
(`HashMap::get`). -/
def lookupAssoc {α : Type} (m : List (List Char × α)) (k : List Char) : Option α :=
  match m with
  | [] => none
  | (k2, v) :: rest => if k2 = k then some v else lookupAssoc rest k

/-- The shared state touched by the import dialog: the stored legacy
config (`DMM_CFG`), the presented loadout rows, and the game directory
field. -/
structure ImportState where
  dmmCfg : Option DmmConfig
  uiLoadouts : List Loadout
  divaDir : List Char
deriving DecidableEq

/-- The outcome of the file-picking and reading phase of `on_import_dmm`:
no folder chosen, `Config.json` absent, `read_to_string` failed, or file
contents (`none` when the text is not valid JSON). -/
inductive ImportInput where
  | noFolder
  | fileMissing
  | readFailed
  | content (raw : Option Json)

/-- serde for one loadout entry: both fields required. -/
def decodeLoadoutMod (j : Json) : Option DmmLoadoutMod :=
  match j with
  | Json.obj fields => do
    let name ← fieldStr fields ("name".toList)
    let enabled ← fieldBool fields ("enabled".toList)
    pure { name, enabled }
  | _ => none

/-- serde for `Vec<DmmLoadoutMod>`. -/
def decodeLoadoutModList (j : Json) : Option (List DmmLoadoutMod) :=
  match j with
  | Json.arr items => go items
  | _ => none
where
  go : List Json → Option (List DmmLoadoutMod)
    | [] => some []
    | x :: rest => do
      let d ← decodeLoadoutMod x
      let ds ← go rest
      pure (d :: ds)

/-- serde for `HashMap<String, Vec<DmmLoadoutMod>>`. -/
def decodeLoadoutsMap (j : Json) : Option (List (List Char × List DmmLoadoutMod)) :=
  match j with
  | Json.obj fields => go fields
  | _ => none
where
  go : List (List Char × Json) → Option (List (List Char × List DmmLoadoutMod))
    | [] => some []
    | (k, v) :: rest => do
      let d ← decodeLoadoutModList v
      let ds ← go rest
      pure ((k, d) :: ds)

/-- serde for an `Option<String>` field with `default`: absent or `null`
is `None`, a string is `Some`, anything else fails. -/
def fieldOptStr (fields : List (List Char × Json)) (k : List Char) :
    Option (Option (List Char)) :=
  match lookupField fields k with
  | none => some none
  | some Json.null => some none
  | some (Json.str s) => some (some s)
  | some _ => none

/-- serde for `DmmPDMMConfig`: all fields defaulted. -/
def decodePDMMConfig (j : Json) : Option DmmPDMMConfig :=
  match j with
  | Json.obj fields => do
    let launcher ← fieldOptStr fields ("Launcher".toList)
    let game_path ← fieldOptStr fields ("GamePath".toList)
    let mods_folder ← fieldOptStr fields ("ModsFolder".toList)
    let current_loadout ← fieldOptStr fields ("CurrentLoadout".toList)
    let loadouts ←
      match lookupField fields ("Loadouts".toList) with
      | none => some []
      | some v => decodeLoadoutsMap v
    pure { launcher, game_path, mods_folder, current_loadout, loadouts }
  | _ => none

/-- serde for `DmmConfig`: `CurrentGame` and `Configs` required. -/
def decodeDmmConfig (j : Json) : Option DmmConfig :=
  match j with
  | Json.obj fields => do
    let current_game ← fieldStr fields ("CurrentGame".toList)
    let configs ←
      match lookupField fields ("Configs".toList) with
      | some (Json.obj cfgs) => goConfigs cfgs
      | _ => none
    pure { current_game, configs }
  | _ => none
where
  goConfigs : List (List Char × Json) → Option (List (List Char × DmmPDMMConfig))
    | [] => some []
    | (k, v) :: rest => do
      let d ← decodePDMMConfig v
      let ds ← goConfigs rest
      pure ((k, d) :: ds)

/-- The profile key looked up by the importer. -/
def pdmmKey : List Char := "Project DIVA Mega Mix+".toList

/-- The `Ok(cfg)` branch of `on_import_dmm` (firstlaunch.rs lines
88-125): store the config in `DMM_CFG` (when the try-lock succeeds), and
if the Mega Mix+ profile exists, maybe update the game directory from
`ModsFolder`, then present one row per loadout, named by `filenamify`
and checked for import, sorted by name. -/
def import_apply_cfg (cfg : DmmConfig) (lockOk : Bool) (modsParentExists : Bool)
    (st : ImportState) : ImportState :=
  let st1 := if lockOk then { st with dmmCfg := some cfg } else st
  match lookupAssoc cfg.configs pdmmKey with
  | none => st1
  | some pdmm =>
    let st2 :=
      match pdmm.mods_folder with
      | some mods_dir =>
        if modsParentExists then { st1 with divaDir := pathPop mods_dir } else st1
      | none => st1
    let rows := pdmm.loadouts.map
      (fun p => ({ name := filenamify p.1, doImport := true } : Loadout))
    { st2 with uiLoadouts := stableSort loadoutLe rows }

/-- The `on_import_dmm` closure (firstlaunch.rs lines 78-134).  The
returned `Bool` records whether `open_error_window` was invoked.  No
folder, an absent `Config.json`, or a failed read all fall through
silently; a body that `sonic_rs` cannot decode as `DmmConfig` (invalid
JSON or wrong shape) surfaces an error window and changes nothing. -/
def on_import_dmm (input : ImportInput) (lockOk : Bool) (modsParentExists : Bool)
    (st : ImportState) : ImportState × Bool :=
  match input with
  | ImportInput.noFolder => (st, false)
  | ImportInput.fileMissing => (st, false)
  | ImportInput.readFailed => (st, false)
  | ImportInput.content none => (st, true)
  | ImportInput.content (some j) =>
    match decodeDmmConfig j with
    | none => (st, true)
    | some cfg => (import_apply_cfg cfg lockOk modsParentExists st, false)

/-! ## Applying the import (`on_apply`, firstlaunch.rs lines 165-290) -/

/-- The inner conversion loop (lines 216-226): every enabled entry of the
loadout becomes a `ModPackMod` via `to_packmod`; disabled entries are
skipped. -/
def convert_mods (mods : List DmmLoadoutMod) (diva_buf : List Char) : List ModPackMod :=
  (mods.filter (fun m => m.enabled)).map (fun m => m.to_packmod diva_buf)

/-- Does this row add to the priority list (lines 228-237)?  It must be
checked for import, `CurrentLoadout` must be recorded, and the
`filenamify` images of the row name and of `CurrentLoadout` must agree. -/
def suppliesPrio (config : DmmPDMMConfig) (l : Loadout) : Bool :=
  l.doImport &&
    match config.current_loadout with
    | some cur => filenamify l.name = filenamify cur
    | none => false

/-- One iteration of the loadout loop of `on_apply` (lines 206-248) over
the accumulated `(packs, prio)` state.  A row that is not checked is
skipped.  Otherwise the row's (already normalized) name is looked up in
the profile's loadout table and `.unwrap()`ed — a missing key panics
(`Except.error`).  The enabled entries become a pack; if the row matches
`CurrentLoadout`, a second (non-panicking) lookup appends every member
name to the priority list. -/
def applyLoadout (config : DmmPDMMConfig) (diva_buf : List Char)
    (st : List ModPack × List (List Char)) (l : Loadout) :
    Except Unit (List ModPack × List (List Char)) :=
  if l.doImport then
    match lookupAssoc config.loadouts l.name with
    | none => Except.error ()
    | some mods =>
      let pack : ModPack := { name := filenamify l.name, mods := convert_mods mods diva_buf }
      let packs := st.1 ++ [pack]
      let prio :=
        if suppliesPrio config l then
          match lookupAssoc config.loadouts l.name with
          | some l2 => st.2 ++ l2.map (fun m => m.name)
          | none => st.2
        else st.2
      Except.ok (packs, prio)
  else Except.ok st

/-- The whole loadout loop of `on_apply` over the presented rows: a
panic in any iteration aborts the loop, otherwise the accumulated state
is threaded through. -/
def apply_loadouts (config : DmmPDMMConfig) (diva_buf : List Char)
    (rows : List Loadout) (st : List ModPack × List (List Char)) :
    Except Unit (List ModPack × List (List Char)) :=
  match rows with
  | [] => Except.ok st
  | l :: rest =>
    (applyLoadout config diva_buf st l).bind
      (fun st2 => apply_loadouts config diva_buf rest st2)

/-- The configured-priority update (lines 271-274): the derived list
replaces the stored one only when it is non-empty. -/
def apply_priority (old : List (List Char)) (prio : List (List Char)) :
    List (List Char) :=
  if prio.isEmpty then old else prio

/-- What the loadout loop of `on_apply` contributes to the priority list:
every row that `suppliesPrio` accepts appends the member names of the
loadout found by looking its (normalized) name up in the table. -/
def prioContrib (config : DmmPDMMConfig) : List Loadout → List (List Char)
  | [] => []
  | l :: rest =>
    (if suppliesPrio config l then
       match lookupAssoc config.loadouts l.name with
       | some l2 => l2.map (fun m => m.name)
       | none => []
     else []) ++ prioContrib config rest

/-! ## Search paging (`on_search` closure and `search_gb`,
gamebanana_async.rs lines 278-336 and 527-538) -/

/-- The remote submitter record (struct `GbSubmitter`). -/
structure GbSubmitter where
  id : Nat
  name : List Char
  is_online : Bool
  has_ripe : Bool
  profile_url : List Char
  avatar_url : List Char
  upic_url : List Char
deriving DecidableEq

/-- The slint-side submitter (struct `SlGbSubmitter`), produced by
`From<GbSubmitter>` (lines 152-159). -/
structure SlGbSubmitter where
  name : List Char
  avatar_url : List Char
deriving DecidableEq

/-- One preview image descriptor (struct `GbPreviewImage`). -/
structure GbPreviewImage where
  img_type : List Char
  base_url : List Char
  file : List Char
deriving DecidableEq

/-- The preview-media block (struct `GbPreview`). -/
structure GbPreview where
  images : List GbPreviewImage
deriving DecidableEq

/-- One search record (struct `GBSearch`, lines 95-133). -/
structure GBSearch where
  id : Nat
  model_name : List Char
  title : List Char
  icon_classes : List Char
  name : List Char
  profile_url : List Char
  date_added : Nat
  has_files : Bool
  submitter : GbSubmitter
  date_updated : Nat
  is_nsfw : Bool
  initial_visibility : List Char
  like_count : Int
  post_count : Int
  was_featured : Bool
  view_count : Int
  is_owned_by_accessor : Bool
  preview_media : GbPreview
deriving DecidableEq

/-- The search metadata block (struct `GbMetadata`). -/
structure GbMetadata where
  record_count : Int
  perpage : Int
  is_complete : Bool
deriving DecidableEq

/-- A whole search response (struct `GbSearchResults`). -/
structure GbSearchResults where
  metadata : GbMetadata
  records : List GBSearch
deriving DecidableEq

/-- The slint row built for each record (struct `GbPreviewData`); the
`image` handle starts as `Image::default()`, modelled as `Unit`. -/
structure GbPreviewData where
  author : SlGbSubmitter
  id : Int
  image : Unit
  item_type : List Char
  name : List Char
  updated : List Char
  image_url : List Char
  image_loaded : Bool
deriving DecidableEq

/-- The per-record construction inside the `on_search` result handler
(lines 287-304): first preview image (if any) gives the image url. -/
def toPreview (i : GBSearch) : GbPreviewData :=
  let imgurl :=
    match i.preview_media.images.head? with
    | some img => img.base_url ++ '/' :: img.file
    | none => []
  { author := { name := i.submitter.name, avatar_url := i.submitter.avatar_url }
    id := castU64toI32 i.id
    image := ()
    item_type := i.model_name
    name := i.name
    updated := "Never".toList
    image_url := imgurl
    image_loaded := false }

/-- The observer-visible result model: either the `VecModel` of rows the
closure installs on page 1, or whatever other model the property held
(the `downcast_ref` in the source can fail on the latter). -/
inductive ResultsModel where
  | vecmodel (items : List GbPreviewData)
  | other
deriving DecidableEq

/-- The state update of the `on_search` result handler (lines 305-323):
page 1 replaces the whole model with the new rows (and sets the total
count); any other page appends to the current `VecModel`, or — when the
held model does not downcast — returns leaving it untouched. -/
def on_search_update (page : Int) (res : GbSearchResults) (st : ResultsModel) :
    ResultsModel × Option Int :=
  let items := res.records.map toPreview
  if page = 1 then (ResultsModel.vecmodel items, some res.metadata.record_count)
  else
    match st with
    | ResultsModel.vecmodel xs => (ResultsModel.vecmodel (xs ++ items), none)
    | ResultsModel.other => (ResultsModel.other, none)

/-- `search_gb` (lines 527-538): a pure function of the query, the page
and the transport outcome — it holds no state between calls.  `none`
models a transport or decode failure (surfaced as `Err`). -/
def search_gb (_search : List Char) (_page : Int)
    (response : Option GbSearchResults) : Except Unit GbSearchResults :=
  match response with
  | some r => Except.ok r
  | none => Except.error ()

/-! ## Cross-instance dispatch (`main`, main.rs lines 69-172) -/

/-- What the start-up argument scan decides: exit before any further
initialization (the `return` at main.rs line 84, reached when forwarding
succeeded), or proceed to full initialization, optionally holding a url
that is later handed to the process's own one-click handler via
`url_tx.send` (lines 156-165). -/
inductive MainOutcome where
  | exitedEarly
  | proceed (url : Option (List Char))
deriving DecidableEq

/-- The argument loop of `main` (lines 77-94): the first argument that
parses as a deep link is forwarded with `try_send_mmdl`; success returns
from `main`, failure breaks out and keeps the url for local handling.
`sendOk` models whether the forwarding attempt succeeds. -/
def main_dispatch (args : List (List Char)) (sendOk : List Char → Bool) : MainOutcome :=
  match args with
  | [] => MainOutcome.proceed none
  | a :: rest =>
    match parse_dmm_url a with
    | some _ => if sendOk a then MainOutcome.exitedEarly else MainOutcome.proceed (some a)
    | none => main_dispatch rest sendOk

/-! ## Concrete sample values used in counterexamples and witnesses -/

/-- A sample download task with file identifier 7. -/
def dl0 : Download :=
  { failed := false, id := 7, name := "rt.zip".toList, progress := 0,
    size := 100, url := "https://gamebanana.com/dl/7".toList }

/-- A sample well-formed remote file record with identifier 7. -/
def gb0 : GbModDownload :=
  { id := 7, file := "rt.zip".toList, filesize := 100,
    description := "a mod".toList, date_added := 5, download_count := 2,
    md5_checksum := "aa".toList, download_url := "https://gamebanana.com/dl/7".toList,
    clam_av_result := "clean".toList, avast_av_result := "clean".toList,
    analysis_state := "done".toList, analysis_result := "ok".toList,
    analysis_result_code := "ok".toList, contains_exe := false }

/-- The JSON object that decodes to `gb0`. -/
def gbJson0 : Json :=
  Json.obj
    [ ("_idRow".toList, Json.num 7)
    , ("_sFile".toList, Json.str ("rt.zip".toList))
    , ("_nFilesize".toList, Json.num 100)
    , ("_sDescription".toList, Json.str ("a mod".toList))
    , ("_tsDateAdded".toList, Json.num 5)
    , ("_nDownloadCount".toList, Json.num 2)
    , ("_sMd5Checksum".toList, Json.str ("aa".toList))
    , ("_sDownloadUrl".toList, Json.str ("https://gamebanana.com/dl/7".toList))
    , ("_sClamAvResult".toList, Json.str ("clean".toList))
    , ("_sAvastAvResult".toList, Json.str ("clean".toList))
    , ("_sAnalysisState".toList, Json.str ("done".toList))
    , ("_sAnalysisResult".toList, Json.str ("ok".toList))
    , ("_sAnalysisResultCode".toList, Json.str ("ok".toList))
    , ("_bContainsExe".toList, Json.bool false)
    ]

/-- A legacy-style item response whose file map holds one record that
fails to decode (a JSON `null`) before a well-formed one. -/
def badBatch : Json :=
  Json.arr
    [ Json.str ("N".toList)
    , Json.obj [("0".toList, Json.null), ("7".toList, gbJson0)]
    , Json.str ("T".toList)
    ]

/-- The same response with only the well-formed record. -/
def goodBatch : Json :=
  Json.arr
    [ Json.str ("N".toList)
    , Json.obj [("7".toList, gbJson0)]
    , Json.str ("T".toList)
    ]

/-- An empty import-dialog state. -/
def st0 : ImportState := { dmmCfg := none, uiLoadouts := [], divaDir := [] }

/-- A Mega Mix+ profile with two distinct loadout names that share the
same filesystem-safe form. -/
def pdmmCollide : DmmPDMMConfig :=
  { launcher := none, game_path := none, mods_folder := none,
    current_loadout := none,
    loadouts := [("My Loadout!".toList, []), ("My Loadout?".toList, [])] }

/-- A legacy config holding the colliding profile. -/
def cfgCollide : DmmConfig :=
  { current_game := "PDMM+".toList
  , configs := [ (pdmmKey, pdmmCollide) ] }

/-- The normalized row that both colliding loadouts present as. -/
def rowCollide : Loadout := { name := "My Loadout".toList, doImport := true }

/-- A profile for the priority counterexample: loadouts "Main" (member X)
and "Main!" (member Y), with "Main!" recorded as current.  Both names
normalize to "Main". -/
def pdmmPrio : DmmPDMMConfig :=
  { launcher := none, game_path := none, mods_folder := none
  , current_loadout := some ("Main!".toList)
  , loadouts :=
      [ ("Main".toList, [{ name := "X".toList, enabled := true }])
      , ("Main!".toList, [{ name := "Y".toList, enabled := true }]) ] }

/-- The rows the import dialog presents for `pdmmPrio`: both named
"Main", both checked. -/
def uiPrio : List Loadout :=
  [ { name := "Main".toList, doImport := true }
  , { name := "Main".toList, doImport := true } ]

/-- A sample search record. -/
def rec0 : GBSearch :=
  { id := 11, model_name := "Mod".toList, title := "Mod".toList,
    icon_classes := [], name := "Neat Mod".toList,
    profile_url := "https://gamebanana.com/mods/11".toList,
    date_added := 1, has_files := true,
    submitter := { id := 3, name := "someone".toList, is_online := false,
                   has_ripe := false, profile_url := [], avatar_url := [],
                   upic_url := [] },
    date_updated := 1, is_nsfw := false, initial_visibility := [],
    like_count := 0, post_count := 0, was_featured := false, view_count := 0,
    is_owned_by_accessor := false, preview_media := { images := [] } }

/-- A one-record page-2 search response. -/
def res0 : GbSearchResults :=
  { metadata := { record_count := 1, perpage := 15, is_complete := true }
  , records := [rec0] }

/-! # Theorems -/

/-! ## Helper lemmas for the regex matcher -/

theorem takeDigits_all_digits :
    ∀ l : List Char, l.all Char.isDigit = true → takeDigits l = (l, []) := by
  intro l h
  induction l with
  | nil => rfl
  | cons x xs ih =>
    simp only [List.all_cons, Bool.and_eq_true] at h
    simp [takeDigits, h.1, ih h.2]

theorem takeDigits_append :
    ∀ (a : List Char) (y : Char) (t : List Char),
      a.all Char.isDigit = true → y.isDigit = false →
      takeDigits (a ++ y :: t) = (a, y :: t) := by
  intro a y t ha hy
  induction a with
  | nil => simp [takeDigits, hy]
  | cons x xs ih =>
    simp only [List.all_cons, Bool.and_eq_true] at ha
    simp [takeDigits, ha.1, ih ha.2]

theorem matchAt_cons_nondigit :
    ∀ (c : Char) (l : List Char), c.isDigit = false → matchAt (c :: l) = none := by
  intro c l hc
  simp [matchAt, takeDigits, hc]

theorem searchFrom_skip :
    ∀ (p l : List Char), p.all (fun c => !c.isDigit) = true →
      searchFrom (p ++ l) = searchFrom l := by
  intro p l hp
  induction p with
  | nil => rfl
  | cons x xs ih =>
    simp only [List.all_cons, Bool.and_eq_true, Bool.not_eq_true'] at hp
    rw [List.cons_append, searchFrom, matchAt_cons_nondigit x (xs ++ l) hp.1]
    exact ih hp.2

theorem findTail_no_comma :
    ∀ l : List Char, l.all (fun c => c != ',') = true → findTail l = none := by
  intro l h
  induction l with
  | nil => rfl
  | cons x xs ih =>
    rw [List.all_cons, Bool.and_eq_true] at h
    have hx : ¬ (x = ',') := by simpa using h.1
    rw [findTail, ih h.2]
    simp [findTailBase, hx]

theorem digits_no_comma :
    ∀ l : List Char, l.all Char.isDigit = true → l.all (fun c => c != ',') = true := by
  intro l h
  rw [List.all_eq_true] at h ⊢
  intro x hx
  have hd := h x hx
  simp only [bne_iff_ne, ne_eq]
  intro hcomma
  rw [hcomma] at hd
  exact absurd hd (by decide)

theorem findTail_split :
    ∀ (b c : List Char), c ≠ [] → c.all Char.isDigit = true →
      findTail (b ++ ',' :: c) = some (b, c) := by
  intro b c hne hdig
  induction b with
  | nil =>
    obtain ⟨y, t, rfl⟩ := List.exists_cons_of_ne_nil hne
    have hy : y.isDigit = true := by
      have h2 := hdig
      simp only [List.all_cons, Bool.and_eq_true] at h2
      exact h2.1
    rw [List.nil_append, findTail,
        findTail_no_comma (y :: t) (digits_no_comma (y :: t) hdig)]
    simp [findTailBase, hy, takeDigits_all_digits (y :: t) hdig]
  | cons x xs ih =>
    rw [List.cons_append, findTail, ih]
    rfl

theorem takeWhile_of_all {p : Char → Bool} :
    ∀ l : List Char, l.all p = true → l.takeWhile p = l := by
  intro l h
  induction l with
  | nil => rfl
  | cons x xs ih =>
    simp only [List.all_cons, Bool.and_eq_true] at h
    simp [List.takeWhile_cons, h.1, ih h.2]

theorem digits_no_newline :
    ∀ l : List Char, l.all Char.isDigit = true →
      l.all (fun c => c != '\n') = true := by
  intro l h
  rw [List.all_eq_true] at h ⊢
  intro x hx
  have hd := h x hx
  simp only [bne_iff_ne, ne_eq]
  intro hnl
  rw [hnl] at hd
  exact absurd hd (by decide)

theorem matchAt_exact :
    ∀ (a b c : List Char), a ≠ [] → b ≠ [] → c ≠ [] →
      a.all Char.isDigit = true → c.all Char.isDigit = true →
      b.all (fun ch => ch != '\n') = true →
      matchAt (a ++ ',' :: (b ++ ',' :: c)) = some (a, b, c) := by
  intro a b c ha hb hc hadig hcdig hbnl
  have htd : takeDigits (a ++ ',' :: (b ++ ',' :: c)) = (a, ',' :: (b ++ ',' :: c)) :=
    takeDigits_append a ',' (b ++ ',' :: c) hadig (by decide)
  have hall : (b ++ ',' :: c).all (fun ch => ch != '\n') = true := by
    rw [List.all_append, hbnl, List.all_cons]
    simp [digits_no_newline c hcdig]
  obtain ⟨a0, a1, rfl⟩ := List.exists_cons_of_ne_nil ha
  obtain ⟨b0, b1, rfl⟩ := List.exists_cons_of_ne_nil hb
  rw [matchAt, htd]
  simp only [List.isEmpty_cons, Bool.false_eq_true, if_false]
  rw [takeWhile_of_all (b0 :: b1 ++ ',' :: c) hall,
      findTail_split (b0 :: b1) c hc hcdig]
  simp

theorem searchFrom_exact :
    ∀ (a b c : List Char), a ≠ [] → b ≠ [] → c ≠ [] →
      a.all Char.isDigit = true → c.all Char.isDigit = true →
      b.all (fun ch => ch != '\n') = true →
      searchFrom (a ++ ',' :: (b ++ ',' :: c)) = some (a, b, c) := by
  intro a b c ha hb hc hadig hcdig hbnl
  have hm := matchAt_exact a b c ha hb hc hadig hcdig hbnl
  obtain ⟨a0, a1, rfl⟩ := List.exists_cons_of_ne_nil ha
  rw [List.cons_append, searchFrom, ← List.cons_append, hm]

theorem isPrefixOf_append_self :
    ∀ p l : List Char, p.isPrefixOf (p ++ l) = true := by
  intro p l
  induction p with
  | nil => simp [List.isPrefixOf]
  | cons x xs ih => simp [List.isPrefixOf, ih]

/-! ## C1 -/

/-- C1 counterexample.  The claim states that `parse_dmm_url` succeeds
exactly on the scheme prefix followed by digits, a comma, non-comma
characters, a comma and digits, anchored to the whole remainder.  Both
directions fail on the code: a url whose remainder `1,x,2junk` does not
satisfy the anchored grammar still parses (the regex is unanchored), and
a url whose remainder `1,x\ny,2` does satisfy the grammar (a newline is
a non-comma character) yields no match (`.` does not match newline). -/
theorem C1_counterexample :
    parse_dmm_url ("divamodmanager:https://gamebanana.com/mmdl/1,x,2junk".toList)
      = some { file_id := ['1'], itemtype := ['x'], item_id := ['2'] }
    ∧ specRemainder ("1,x,2junk".toList) = false
    ∧ parse_dmm_url ("divamodmanager:https://gamebanana.com/mmdl/1,x\ny,2".toList) = none
    ∧ specRemainder ("1,x\ny,2".toList) = true := by decide

/-- C1 (amended): a url that does not start with the scheme string never
matches, and a url that is the scheme string followed by one or more
digits, a comma, one or more newline-free characters, and a comma and
one or more digits at the end yields exactly those three groups as
`(file_id, itemtype, item_id)`; the function is total (never an error or
panic).  The match is however not anchored to the remainder: see the
counterexample. -/
theorem C1_amended :
    (∀ url : List Char, dmmHead.isPrefixOf url = false → parse_dmm_url url = none)
    ∧ (∀ a b c : List Char, a ≠ [] → b ≠ [] → c ≠ [] →
        a.all Char.isDigit = true → c.all Char.isDigit = true →
        b.all (fun ch => ch != '\n') = true →
        parse_dmm_url (dmmHead ++ (a ++ ',' :: (b ++ ',' :: c)))
          = some { file_id := a, itemtype := b, item_id := c }) := by
  constructor
  · intro url h
    simp [parse_dmm_url, h]
  · intro a b c ha hb hc hadig hcdig hbnl
    have hpre : dmmHead.isPrefixOf (dmmHead ++ (a ++ ',' :: (b ++ ',' :: c))) = true :=
      isPrefixOf_append_self dmmHead (a ++ ',' :: (b ++ ',' :: c))
    have hsk : searchFrom (dmmHead ++ (a ++ ',' :: (b ++ ',' :: c)))
        = searchFrom (a ++ ',' :: (b ++ ',' :: c)) :=
      searchFrom_skip dmmHead (a ++ ',' :: (b ++ ',' :: c)) (by decide)
    have hs := searchFrom_exact a b c ha hb hc hadig hcdig hbnl
    rw [parse_dmm_url, hsk, hs]
    simp [hpre]

/-- C1 witness: the amended theorem applied at a concrete valid deep
link and at a concrete prefix-less url. -/
theorem C1_witness :
    parse_dmm_url (dmmHead ++ (['1'] ++ ',' :: (['x'] ++ ',' :: ['2'])))
      = some { file_id := ['1'], itemtype := ['x'], item_id := ['2'] }
    ∧ parse_dmm_url ("nope".toList) = none :=
  ⟨C1_amended.2 ['1'] ['x'] ['2'] (by decide) (by decide) (by decide)
      (by decide) (by decide) (by decide),
   C1_amended.1 ("nope".toList) (by decide)⟩

/-! ## C2 -/

/-- C2 counterexample.  Enqueueing a file whose identifier already has a
live task does not return the existing task: both enqueue paths append a
second task with the same identifier to the downloads registry. -/
theorem C2_counterexample :
    (on_download_file [dl0] dl0 0).1 = [dl0, dl0]
    ∧ (oneclick_push [gbFileToDownload gb0] gb0).1
        = [gbFileToDownload gb0, gbFileToDownload gb0]
    ∧ (gbFileToDownload gb0).id = dl0.id := by decide

/-- C2 (amended): enqueue is not idempotent.  Both the search-driven
enqueue (`on_download_file`) and the one-click enqueue unconditionally
append a fresh task, so the number of registered tasks carrying the
enqueued file's identifier always grows by exactly one, whatever the
registry already holds. -/
theorem C2_amended :
    (∀ (st : List Download) (f : Download) (r : Int),
        (on_download_file st f r).1 = st ++ [f]
        ∧ ((on_download_file st f r).1.countP (fun x => x.id == f.id))
            = st.countP (fun x => x.id == f.id) + 1)
    ∧ (∀ (st : List Download) (f : GbModDownload),
        (oneclick_push st f).1 = st ++ [gbFileToDownload f]
        ∧ ((oneclick_push st f).1.countP
              (fun x => x.id == (gbFileToDownload f).id))
            = st.countP (fun x => x.id == (gbFileToDownload f).id) + 1) := by
  constructor
  · intro st f r
    refine ⟨rfl, ?_⟩
    simp [on_download_file, List.countP_append, List.countP_cons]
  · intro st f
    refine ⟨rfl, ?_⟩
    simp [oneclick_push, List.countP_append, List.countP_cons]

/-! ## C3 -/

/-- C3 counterexample.  A transport failure does not produce an absent
value: `fetch_mod_data` panics (`perform().unwrap()`).  And one
malformed file record is not isolated: the batch holding the null record
next to a well-formed one panics, while the same batch without the bad
record succeeds — so a single bad record aborts the rest of the batch. -/
theorem C3_counterexample :
    fetch_mod_data ("1".toList) none = Except.error ()
    ∧ fetch_mod_data ("1".toList) (some (some badBatch)) = Except.error ()
    ∧ fetch_mod_data ("1".toList) (some (some goodBatch))
        = Except.ok (some { name := '"' :: 'N' :: ['"'], files := [gb0],
                            text := '"' :: 'T' :: ['"'] }) := by decide

/-- C3 (amended): with a non-empty identifier, a body that is not valid
JSON, or whose index-1 entry is not an object, yields an absent value
without error; but a transport failure panics, and the first file record
that fails to decode panics, aborting the whole batch regardless of the
records after it. -/
theorem C3_amended :
    (∀ mod_id : List Char, mod_id ≠ [] → fetch_mod_data mod_id none = Except.error ())
    ∧ (∀ mod_id : List Char, mod_id ≠ [] →
        fetch_mod_data mod_id (some none) = Except.ok none)
    ∧ (∀ (mod_id : List Char) (v : Json), mod_id ≠ [] →
        (v.get 1).intoObject = none →
        fetch_mod_data mod_id (some (some v)) = Except.ok none)
    ∧ (∀ (mod_id k : List Char) (a c v : Json) (rest : List (List Char × Json)),
        mod_id ≠ [] → decodeGbModDownload v = none →
        fetch_mod_data mod_id (some (some (Json.arr [a, Json.obj ((k, v) :: rest), c])))
          = Except.error ()) := by
  refine ⟨?_, ?_, ?_, ?_⟩
  · intro mod_id h
    obtain ⟨m, ms, rfl⟩ := List.exists_cons_of_ne_nil h
    rfl
  · intro mod_id h
    obtain ⟨m, ms, rfl⟩ := List.exists_cons_of_ne_nil h
    rfl
  · intro mod_id v h hobj
    obtain ⟨m, ms, rfl⟩ := List.exists_cons_of_ne_nil h
    simp [fetch_mod_data, processResponse, hobj]
  · intro mod_id k a c v rest h hdec
    obtain ⟨m, ms, rfl⟩ := List.exists_cons_of_ne_nil h
    simp [fetch_mod_data, processResponse, Json.get, Json.intoObject,
          decodeFiles, hdec]

/-- C3 witness: the amended theorem applied at concrete inputs. -/
theorem C3_witness :
    fetch_mod_data ("9".toList) none = Except.error ()
    ∧ fetch_mod_data ("9".toList) (some none) = Except.ok none
    ∧ fetch_mod_data ("9".toList) (some (some Json.null)) = Except.ok none
    ∧ fetch_mod_data ("9".toList)
        (some (some (Json.arr [Json.null, Json.obj [([], Json.null)], Json.null])))
          = Except.error () :=
  ⟨C3_amended.1 ("9".toList) (by decide),
   C3_amended.2.1 ("9".toList) (by decide),
   C3_amended.2.2.1 ("9".toList) Json.null (by decide) rfl,
   C3_amended.2.2.2 ("9".toList) [] Json.null Json.null Json.null []
     (by decide) rfl⟩

/-! ## C10 -/

/-- C10 (confirmed): with the empty mod identifier, `fetch_mod_data`
returns `None` whatever the network would have answered — the guard
fires before the request is even built, so no transport outcome (not
even a failing one) can influence the result or cause a panic. -/
theorem C10_empty_id :
    ∀ transport : Option (Option Json), fetch_mod_data [] transport = Except.ok none :=
  fun _ => rfl

/-! ## C4 -/

/-- C4 counterexample.  The claim says an absent `Config.json` fails with
`NotFoundError` (surfaced to the user like the decode error is); the
code silently does nothing: no error window is opened (`false`), while a
malformed body does open one (`true`).  State is unchanged either way. -/
theorem C4_counterexample :
    on_import_dmm ImportInput.fileMissing true true st0 = (st0, false)
    ∧ on_import_dmm (ImportInput.content none) true true st0 = (st0, true) := by decide

/-- C4 (amended): an absent `Config.json` (like an unpicked folder or a
failed read) makes the import silently not proceed — no error is
surfaced and no shared state (stored legacy config, presented loadout
list, directory field) is mutated; a body that does not decode as a
legacy config (malformed JSON or wrong shape) surfaces an error window
and likewise mutates nothing; no failure case crashes. -/
theorem C4_amended :
    (∀ (lockOk mp : Bool) (st : ImportState),
        on_import_dmm ImportInput.fileMissing lockOk mp st = (st, false))
    ∧ (∀ (lockOk mp : Bool) (st : ImportState),
        on_import_dmm (ImportInput.content none) lockOk mp st = (st, true))
    ∧ (∀ (lockOk mp : Bool) (st : ImportState) (j : Json),
        decodeDmmConfig j = none →
        on_import_dmm (ImportInput.content (some j)) lockOk mp st = (st, true)) := by
  refine ⟨fun _ _ _ => rfl, fun _ _ _ => rfl, ?_⟩
  intro lockOk mp st j h
  simp [on_import_dmm, h]

/-- C4 witness: the amended theorem applied to a body that is valid JSON
but not a legacy config. -/
theorem C4_witness :
    on_import_dmm (ImportInput.content (some Json.null)) false false st0
      = (st0, true) :=
  C4_amended.2.2 false false st0 Json.null rfl

/-! ## C5 -/

theorem insertSorted_perm :
    ∀ (le : Loadout → Loadout → Bool) (x : Loadout) (l : List Loadout),
      (insertSorted le x l).Perm (x :: l) := by
  intro le x l
  induction l with
  | nil => exact List.Perm.refl _
  | cons y ys ih =>
    rw [insertSorted]
    by_cases h : le x y = true
    · rw [if_pos h]
    · rw [if_neg h]
      exact ((ih.cons y).trans (List.Perm.swap x y ys))

theorem stableSort_perm :
    ∀ (le : Loadout → Loadout → Bool) (l : List Loadout),
      (stableSort le l).Perm l := by
  intro le l
  induction l with
  | nil => exact List.Perm.refl _
  | cons x xs ih =>
    rw [stableSort]
    exact (insertSorted_perm le x (stableSort le xs)).trans (ih.cons x)

/-- C5 counterexample.  Two loadouts named "My Loadout!" and
"My Loadout?" — distinct names with the same filesystem-safe form — are
presented as two *identical* rows: each carries only the normalized name
with the import flag, so the entries do not retain their original
identity and are indistinguishable from one another. -/
theorem C5_counterexample :
    (import_apply_cfg cfgCollide true true st0).uiLoadouts = [rowCollide, rowCollide]
    ∧ ("My Loadout!".toList) ≠ ("My Loadout?".toList)
    ∧ filenamify ("My Loadout!".toList) = filenamify ("My Loadout?".toList) := by decide

/-- C5 (amended): the presented list keeps one row per loadout of the
profile (none are dropped or merged), every row is marked for import,
and every row's name is the `filenamify` image of some loadout name —
only that normalized name survives, so rows of loadouts with colliding
normalizations are indistinguishable duplicates. -/
theorem C5_amended :
    ∀ (cfg : DmmConfig) (pdmm : DmmPDMMConfig) (lockOk mp : Bool) (st : ImportState),
      lookupAssoc cfg.configs pdmmKey = some pdmm →
      ((import_apply_cfg cfg lockOk mp st).uiLoadouts.length = pdmm.loadouts.length
       ∧ ∀ e ∈ (import_apply_cfg cfg lockOk mp st).uiLoadouts,
           e.doImport = true ∧ ∃ p ∈ pdmm.loadouts, e.name = filenamify p.1) := by
  intro cfg pdmm lockOk mp st hlk
  have hres : (import_apply_cfg cfg lockOk mp st).uiLoadouts
      = stableSort loadoutLe (pdmm.loadouts.map
          (fun p => ({ name := filenamify p.1, doImport := true } : Loadout))) := by
    simp [import_apply_cfg, hlk]
  have hperm := stableSort_perm loadoutLe (pdmm.loadouts.map
      (fun p => ({ name := filenamify p.1, doImport := true } : Loadout)))
  constructor
  · rw [hres, hperm.length_eq, List.length_map]
  · intro e he
    rw [hres] at he
    have he2 := hperm.mem_iff.mp he
    obtain ⟨p, hp, rfl⟩ := List.mem_map.mp he2
    exact ⟨rfl, p, hp, rfl⟩

/-- C5 witness: the amended theorem applied to the colliding profile. -/
theorem C5_witness :
    (import_apply_cfg cfgCollide true true st0).uiLoadouts.length
        = pdmmCollide.loadouts.length
    ∧ ∀ e ∈ (import_apply_cfg cfgCollide true true st0).uiLoadouts,
        e.doImport = true ∧ ∃ p ∈ pdmmCollide.loadouts, e.name = filenamify p.1 :=
  C5_amended cfgCollide pdmmCollide true true st0 (by decide)

/-! ## C6 -/

theorem applyLoadout_prio :
    ∀ (config : DmmPDMMConfig) (buf : List Char)
      (st st2 : List ModPack × List (List Char)) (l : Loadout),
      applyLoadout config buf st l = Except.ok st2 →
      st2.2 = st.2 ++
        (if suppliesPrio config l then
           match lookupAssoc config.loadouts l.name with
           | some l2 => l2.map (fun m => m.name)
           | none => []
         else []) := by
  intro config buf st st2 l h
  by_cases h1 : l.doImport = true
  · rw [applyLoadout, if_pos h1] at h
    cases h2 : lookupAssoc config.loadouts l.name with
    | none =>
      rw [h2] at h
      exact absurd h (by simp)
    | some mods =>
      rw [h2] at h
      simp only [Except.ok.injEq] at h
      subst h
      by_cases h3 : suppliesPrio config l = true
      · simp [h3, h2]
      · rw [Bool.not_eq_true] at h3
        simp [h3]
  · rw [Bool.not_eq_true] at h1
    have h3 : suppliesPrio config l = false := by
      simp [suppliesPrio, h1]
    rw [applyLoadout] at h
    rw [h1] at h
    simp only [Bool.false_eq_true, if_false, Except.ok.injEq] at h
    subst h
    simp [h3]

theorem apply_loadouts_prio :
    ∀ (config : DmmPDMMConfig) (buf : List Char) (rows : List Loadout)
      (st res : List ModPack × List (List Char)),
      apply_loadouts config buf rows st = Except.ok res →
      res.2 = st.2 ++ prioContrib config rows := by
  intro config buf rows
  induction rows with
  | nil =>
    intro st res h
    simp only [apply_loadouts, Except.ok.injEq] at h
    subst h
    simp [prioContrib]
  | cons l rest ih =>
    intro st res h
    rw [apply_loadouts] at h
    cases h2 : applyLoadout config buf st l with
    | error e =>
      rw [h2] at h
      exact absurd h (by simp [Except.bind])
    | ok st2 =>
      rw [h2] at h
      simp only [Except.bind] at h
      have hstep := applyLoadout_prio config buf st st2 l h2
      have hrest := ih st2 res h
      rw [hrest, hstep, prioContrib, List.append_assoc]

theorem prioContrib_append :
    ∀ (config : DmmPDMMConfig) (xs ys : List Loadout),
      prioContrib config (xs ++ ys) = prioContrib config xs ++ prioContrib config ys := by
  intro config xs ys
  induction xs with
  | nil => simp [prioContrib]
  | cons l rest ih =>
    rw [List.cons_append, prioContrib, prioContrib, ih, List.append_assoc]

theorem prioContrib_none :
    ∀ (config : DmmPDMMConfig) (rows : List Loadout),
      (∀ l ∈ rows, suppliesPrio config l = false) → prioContrib config rows = [] := by
  intro config rows h
  induction rows with
  | nil => rfl
  | cons l rest ih =>
    have hl := h l (List.mem_cons_self l rest)
    rw [prioContrib, hl]
    simp only [Bool.false_eq_true, if_false, List.nil_append]
    exact ih (fun x hx => h x (List.mem_cons_of_mem l hx))

/-- C6 counterexample.  The profile records `CurrentLoadout = "Main!"`
(members `[Y]`) and also holds a loadout "Main" (members `[X]`); both
names normalize to "Main", so the import dialog presents two rows named
"Main".  Applying the import derives the priority list `["X", "X"]`:
two rows matched (not at most one), each looked up the *other* loadout
("Main", the first table entry with the normalized name), and the result
is neither the current loadout's members `["Y"]` nor a single copy of
`["X"]`. -/
theorem C6_counterexample :
    apply_loadouts pdmmPrio ("/games/diva".toList) uiPrio ([], [])
      = Except.ok
          ([ { name := "Main".toList,
               mods := [{ name := "X".toList, enabled := true,
                          path := "/games/diva/X".toList }] }
           , { name := "Main".toList,
               mods := [{ name := "X".toList, enabled := true,
                          path := "/games/diva/X".toList }] } ],
           ["X".toList, "X".toList])
    ∧ pdmmPrio.current_loadout = some ("Main!".toList)
    ∧ lookupAssoc pdmmPrio.loadouts ("Main!".toList)
        = some [{ name := "Y".toList, enabled := true }]
    ∧ (["X".toList, "X".toList] ≠ (["Y".toList] : List (List Char)))
    ∧ (["X".toList, "X".toList] ≠ (["X".toList] : List (List Char))) := by decide

/-- C6 (amended): when the loadout loop finishes without panicking, the
derived priority list is the old one extended by `prioContrib`: every
checked row whose normalized name agrees with the normalized
`CurrentLoadout` appends the member names — in stored order — of the
loadout found by looking the row's (normalized) name up in the table.
When no chosen row matches, nothing is contributed, and the
configured order is preserved (`apply_priority` keeps the old list for
an empty contribution).  When exactly one row matches, the list is
exactly the looked-up loadout's member names; with colliding normalized
names several rows may match and each appends again. -/
theorem C6_amended :
    (∀ (config : DmmPDMMConfig) (buf : List Char) (rows : List Loadout)
        (st res : List ModPack × List (List Char)),
        apply_loadouts config buf rows st = Except.ok res →
        res.2 = st.2 ++ prioContrib config rows)
    ∧ (∀ (config : DmmPDMMConfig) (rows : List Loadout),
        (∀ l ∈ rows, suppliesPrio config l = false) → prioContrib config rows = [])
    ∧ (∀ (config : DmmPDMMConfig) (ui1 ui2 : List Loadout) (l : Loadout)
        (members : List DmmLoadoutMod),
        (∀ x ∈ ui1, suppliesPrio config x = false) →
        (∀ x ∈ ui2, suppliesPrio config x = false) →
        suppliesPrio config l = true →
        lookupAssoc config.loadouts l.name = some members →
        prioContrib config (ui1 ++ l :: ui2) = members.map (fun m => m.name))
    ∧ (∀ old : List (List Char), apply_priority old [] = old) := by
  refine ⟨apply_loadouts_prio, prioContrib_none, ?_, fun _ => rfl⟩
  intro config ui1 ui2 l members h1 h2 hl hlk
  rw [prioContrib_append, prioContrib_none config ui1 h1, List.nil_append,
      prioContrib, prioContrib_none config ui2 h2, if_pos hl, hlk,
      List.append_nil]

/-- C6 witness: the amended theorem applied at concrete inputs — an
empty row list contributes nothing and preserves the accumulated list,
and a single matching row named "Main" contributes the members of the
"Main" table entry. -/
theorem C6_witness :
    (((([] : List ModPack), (["P".toList] : List (List Char))).2
        = (([] : List ModPack), (["P".toList] : List (List Char))).2
            ++ prioContrib pdmmPrio [])
     ∧ prioContrib pdmmPrio [] = [])
    ∧ prioContrib pdmmPrio [{ name := "Main".toList, doImport := true }]
        = ([{ name := "X".toList, enabled := true }] : List DmmLoadoutMod).map
            (fun m => m.name)
    ∧ apply_priority ["A".toList] [] = ["A".toList] :=
  ⟨⟨C6_amended.1 pdmmPrio [] [] ([], ["P".toList]) ([], ["P".toList]) rfl,
    C6_amended.2.1 pdmmPrio [] (fun x hx => absurd hx (List.not_mem_nil x))⟩,
   C6_amended.2.2.1 pdmmPrio [] [] { name := "Main".toList, doImport := true }
     [{ name := "X".toList, enabled := true }]
     (fun x hx => absurd hx (List.not_mem_nil x))
     (fun x hx => absurd hx (List.not_mem_nil x))
     (by decide) (by decide),
   C6_amended.2.2.2 ["A".toList]⟩

/-! ## C7 -/

/-- C7 (confirmed): for every legacy loadout and install root, conversion
keeps exactly the entries with `enabled = true`, each as a package mod
carrying its name (still enabled) and the path obtained by pushing the
mod name onto the install root; disabled entries are dropped entirely.
In particular the spec's example `[{A, enabled}, {B, disabled}]` against
`/games/diva` yields exactly the entry `A` at `/games/diva/A`. -/
theorem C7_convert :
    (∀ (mods : List DmmLoadoutMod) (diva_buf : List Char),
        convert_mods mods diva_buf
          = mods.filterMap (fun m =>
              if m.enabled then
                some { name := m.name, enabled := true,
                       path := pathPush diva_buf m.name }
              else none))
    ∧ convert_mods [{ name := "A".toList, enabled := true },
                    { name := "B".toList, enabled := false }] ("/games/diva".toList)
        = [{ name := "A".toList, enabled := true,
             path := "/games/diva/A".toList }] := by
  constructor
  · intro mods diva_buf
    induction mods with
    | nil => rfl
    | cons m rest ih =>
      simp only [convert_mods] at ih
      simp only [convert_mods, List.filter_cons, List.filterMap_cons]
      cases h : m.enabled with
      | false => simpa [h] using ih
      | true =>
        simp only [h, if_true, List.map_cons]
        rw [ih]
        simp [DmmLoadoutMod.to_packmod, h]
  · decide

/-! ## C8 -/

/-- C8 counterexample.  A successful page-2 search whose response holds a
record leaves the observer-visible model untouched when the held model
is not the vector model the page-1 path installs (the `downcast_ref`
`None` branch): the new records are dropped, not appended. -/
theorem C8_counterexample :
    on_search_update 2 res0 ResultsModel.other = (ResultsModel.other, none)
    ∧ res0.records ≠ [] := by decide

/-- C8 (amended): a page-1 search replaces the observer-visible list with
the new records, mapped in exactly the server's order, and publishes the
total count; a search with any other page value appends the new records
after the held ones — never reordered or deduplicated — provided the
held model is the vector model a page-1 update installs; when the held
model is anything else the update is skipped and the held items remain.
(`search_gb` itself is embedded as a pure function of query, page and
transport outcome: it keeps no state between calls.) -/
theorem C8_amended :
    (∀ (res : GbSearchResults) (st : ResultsModel),
        on_search_update 1 res st
          = (ResultsModel.vecmodel (res.records.map toPreview),
             some res.metadata.record_count))
    ∧ (∀ (page : Int) (res : GbSearchResults) (xs : List GbPreviewData), page ≠ 1 →
        on_search_update page res (ResultsModel.vecmodel xs)
          = (ResultsModel.vecmodel (xs ++ res.records.map toPreview), none))
    ∧ (∀ (page : Int) (res : GbSearchResults), page ≠ 1 →
        on_search_update page res ResultsModel.other = (ResultsModel.other, none)) := by
  refine ⟨fun res st => rfl, ?_, ?_⟩
  · intro page res xs h
    simp [on_search_update, h]
  · intro page res h
    simp [on_search_update, h]

/-- C8 witness: the amended theorem applied at a concrete response, for
page 1, for page 2 over an installed vector model, and for page 0 over a
foreign model. -/
theorem C8_witness :
    on_search_update 1 res0 ResultsModel.other
      = (ResultsModel.vecmodel (res0.records.map toPreview),
         some res0.metadata.record_count)
    ∧ on_search_update 2 res0 (ResultsModel.vecmodel [])
      = (ResultsModel.vecmodel ([] ++ res0.records.map toPreview), none)
    ∧ on_search_update 0 res0 ResultsModel.other = (ResultsModel.other, none) :=
  ⟨C8_amended.1 res0 ResultsModel.other,
   C8_amended.2.1 2 res0 [] (by decide),
   C8_amended.2.2 0 res0 (by decide)⟩

/-! ## C9 -/

/-- C9 (confirmed): when the first command-line argument that parses as a
deep link is reached, the startup scan either exits the process at once
(forwarding succeeded — the `return` precedes every initialization step:
no temp dir, no window, no listener, no download channels) or proceeds
to full initialization holding exactly that url, which `main` later
sends into its own one-click handler's channel. -/
theorem C9_dispatch :
    ∀ (pre : List (List Char)) (a : List Char) (rest : List (List Char))
      (sendOk : List Char → Bool),
      (∀ x ∈ pre, parse_dmm_url x = none) →
      parse_dmm_url a ≠ none →
      main_dispatch (pre ++ a :: rest) sendOk
        = if sendOk a then MainOutcome.exitedEarly
          else MainOutcome.proceed (some a) := by
  intro pre a rest sendOk hpre ha
  induction pre with
  | nil =>
    rw [List.nil_append, main_dispatch]
    cases h2 : parse_dmm_url a with
    | none => exact absurd h2 ha
    | some r => rfl
  | cons x xs ih =>
    rw [List.cons_append, main_dispatch, hpre x (List.mem_cons_self x xs)]
    exact ih (fun y hy => hpre y (List.mem_cons_of_mem x hy))

/-- C9 witness: the dispatch applied to a concrete argument list (the
program name followed by a deep link), once with forwarding succeeding
and once with it failing. -/
theorem C9_witness :
    main_dispatch [("app".toList),
        ("divamodmanager:https://gamebanana.com/mmdl/1,x,2".toList)]
      (fun _ => true) = MainOutcome.exitedEarly
    ∧ main_dispatch [("app".toList),
        ("divamodmanager:https://gamebanana.com/mmdl/1,x,2".toList)]
      (fun _ => false)
      = MainOutcome.proceed
          (some ("divamodmanager:https://gamebanana.com/mmdl/1,x,2".toList)) := by
  constructor
  · have h := C9_dispatch [("app".toList)]
      ("divamodmanager:https://gamebanana.com/mmdl/1,x,2".toList) []
      (fun _ => true) (by decide) (by decide)
    simpa using h
  · have h := C9_dispatch [("app".toList)]
      ("divamodmanager:https://gamebanana.com/mmdl/1,x,2".toList) []
      (fun _ => false) (by decide) (by decide)
    simpa using h

end R4D
